import Mathlib

/-!
Shallow embedding of the MightyOhm Geiger counter firmware (src/geiger.c)
and proofs of the specification claims about it.

Machine integers are modelled as `Nat` with explicit reduction where the C
types wrap: the 8-bit globals reduce modulo 256, the 64-bit event counter is
guarded by the source's own saturation test.  Hardware registers touched by
the firmware are fields of an `MCU` record; serial transmission is modelled
as the list of characters pushed into the UART data register.
-/

namespace Geiger

/-- Macro `#define SER_BUFF_LEN 17` (geiger.c line 75). -/
def SER_BUFF_LEN : Nat := 17

/-- Macro `#define PULSEWIDTH 100` (geiger.c line 76), microseconds. -/
def PULSEWIDTH : Nat := 100

/-- Macro `#define F_CPU 8000000` (geiger.c line 73), AVR clock speed in Hz. -/
def F_CPU : Nat := 8000000

/-- Constant `UINT64_MAX` from stdint.h: the largest value of the C type `uint64_t`. -/
def UINT64_MAX : Nat := 2 ^ 64 - 1

/-- Bit position PB4 (LED pin) from avr/io.h for the ATtiny2313. -/
def PB4 : Nat := 4

/-- Bit position PB2 (piezo pin) from avr/io.h for the ATtiny2313. -/
def PB2 : Nat := 2

/-- Bit position PD6 (PULSE output pin) from avr/io.h. -/
def PD6 : Nat := 6

/-- Bit position PD3 (button pin) from avr/io.h. -/
def PD3 : Nat := 3

/-- Bit position COM0A1 in TCCR0A from avr/io.h. -/
def COM0A1 : Nat := 7

/-- Bit position COM0A0 in TCCR0A from avr/io.h. -/
def COM0A0 : Nat := 6

/-- Bit position WGM01 in TCCR0A from avr/io.h. -/
def WGM01 : Nat := 1

/-- Bit position WGM00 in TCCR0A from avr/io.h. -/
def WGM00 : Nat := 0

/-- Bit position CS01 in TCCR0B from avr/io.h. -/
def CS01 : Nat := 1

/-- Bit position INTF1 in EIFR from avr/io.h. -/
def INTF1 : Nat := 7

/-- The avr-libc `_BV(n)` bit-value macro: `1 << n`. -/
def bv (n : Nat) : Nat := 1 <<< n

/-- 8-bit one's complement, as used by C expressions `~_BV(n)` once
truncated to the 8-bit registers they are stored into. -/
def compl8 (n : Nat) : Nat := 0xFF ^^^ n

/-- The mutable program and hardware-register state of the firmware:
the five globals of geiger.c (lines 87-93) plus the I/O registers the
core routines write.  Characters transmitted on the UART are returned by
the functions that transmit them rather than stored here. -/
structure MCU where
  feedback_mode : Nat    -- volatile uint8_t feedback_mode  (line 87)
  count : Nat            -- volatile uint64_t count         (line 88)
  eventflag : Nat        -- volatile uint8_t eventflag      (line 90)
  tick : Nat             -- volatile uint8_t tick           (line 91)
  serbuf : List Char     -- char serbuf[SER_BUFF_LEN]       (line 93)
  portb : Nat            -- PORTB register (LED on bit PB4)
  portd : Nat            -- PORTD register (PULSE on bit PD6)
  tccr0a : Nat           -- Timer0 control register A
  tccr0b : Nat           -- Timer0 control register B
  ocr0a : Nat            -- Timer0 output compare register A
  eifr : Nat             -- external interrupt flag register
  deriving Repr, DecidableEq

/-- Handler `ISR(INT0_vect)` (geiger.c lines 100-113): the detector-pulse handler.
Saturating increment of `count`, a 100 microsecond pulse on PD6 (the pin
ends low again before the handler returns), then `eventflag = 1`. -/
def isr_int0 (s : MCU) : MCU :=
  let s1 := if s.count < UINT64_MAX then { s with count := s.count + 1 } else s
  let s2 := { s1 with portd := s1.portd ||| bv PD6 }       -- PORTD |= _BV(PD6)
  -- _delay_us(PULSEWIDTH)
  let s3 := { s2 with portd := s2.portd &&& compl8 (bv PD6) } -- PORTD &= ~_BV(PD6)
  { s3 with eventflag := 1 }

/-- Handler `ISR(INT1_vect)` (geiger.c lines 119-125): the pushbutton handler.
After the 25 ms settle delay the button level is re-sampled; `pressed`
is the value of the C condition `(PIND & _BV(PD3)) == 0` at that moment.
`feedback_mode++` wraps modulo 256 because the global is `uint8_t`. -/
def isr_int1 (pressed : Bool) (s : MCU) : MCU :=
  -- _delay_ms(25), then re-sample the pin
  let s1 := if pressed then { s with feedback_mode := (s.feedback_mode + 1) % 256 } else s
  { s1 with eifr := s1.eifr ||| bv INTF1 }                 -- EIFR |= _BV(INTF1)

/-- Handler `ISR(TIMER1_COMPA_vect)` (geiger.c lines 130-133): the tick timer
handler, which only sets the tick flag. -/
def isr_timer1 (s : MCU) : MCU :=
  { s with tick := 1 }

/-- The characters pushed into the UART by `uart_putchar` (geiger.c lines
138-144): a newline is preceded by a carriage return (Windows-style CRLF),
any other character is sent as is. -/
def uart_putchar (c : Char) : List Char :=
  (if c = '\n' then ['\r'] else []) ++ [c]

/-- The characters pushed into the UART by `uart_putstring` (geiger.c lines
147-154): each character of the buffer up to (excluding) the first NUL is
sent through `uart_putchar`. -/
def uart_putstring : List Char → List Char
  | [] => []
  | c :: rest => if c = '\x00' then [] else uart_putchar c ++ uart_putstring rest

/-- The character the hexu64 loop body stores for a 4-bit value `d`:
`'0' + d` when `d < 10`, otherwise `'A' + (d - 10)` (geiger.c lines
197-201). -/
def hexDigit (d : Nat) : Char :=
  if d < 10 then Char.ofNat ('0'.toNat + d) else Char.ofNat ('A'.toNat + (d - 10))

/-- The digit loop of `hexu64` (geiger.c lines 196-203): the pointer `p`
runs from `buf + 15` down to `buf`; each iteration stores the digit for
`x & 0xF` at `p` and then shifts `x` right by 4.  The first component is
the buffer after the loop; the second records every store the loop makes,
as (index, character) pairs in execution order. -/
def hexu64Loop : Nat → Nat → List Char → List Char × List (Nat × Char)
  | x, 0, buf => (buf.set 0 (hexDigit (x &&& 0xF)), [(0, hexDigit (x &&& 0xF))])
  | x, p + 1, buf =>
      let c := hexDigit (x &&& 0xF)
      let r := hexu64Loop (x >>> 4) p (buf.set (p + 1) c)
      (r.1, (p + 1, c) :: r.2)

/-- Function `hexu64` (geiger.c lines 190-204): stores the NUL terminator at index
16 and then runs the digit loop from index 15 down to 0.  The first
component is the resulting buffer, the second the full list of stores. -/
def hexu64 (x : Nat) (buf : List Char) : List Char × List (Nat × Char) :=
  let r := hexu64Loop x 15 (buf.set 16 '\x00')
  (r.1, (16, '\x00') :: r.2)

/-- Function `checkevent` (geiger.c lines 165-187): if `eventflag` is zero, nothing
happens.  Otherwise the flag is cleared first, the LED is switched on when
bit 0 of the feedback mode is set, the tone timer is configured and started
when bit 1 is set, and after the 10 ms hold delay the LED is switched off,
Timer0 is stopped (`TCCR0B = 0`) and its output compare pin disconnected.
The second component is the state during the 10 ms hold delay (`none` when
the flag was clear and nothing was done). -/
def checkevent (s : MCU) : MCU × Option MCU :=
  if s.eventflag ≠ 0 then
    let s1 := { s with eventflag := 0 }
    let s2 := if s1.feedback_mode &&& 1 ≠ 0 then
                { s1 with portb := s1.portb ||| bv PB4 }   -- turn on the LED
              else s1
    let s3 := if s2.feedback_mode &&& 2 ≠ 0 then
                { s2 with tccr0a := s2.tccr0a ||| bv COM0A0,
                          tccr0b := s2.tccr0b ||| bv CS01,
                          ocr0a := 160 }
              else s2
    -- _delay_ms(10): the state during the hold is s3
    let s4 := { s3 with portb := s3.portb &&& compl8 (bv PB4) } -- turn off the LED
    let s5 := { s4 with tccr0b := 0 }
    let s6 := { s5 with tccr0a := s5.tccr0a &&& compl8 (bv COM0A0) }
    (s6, some s3)
  else (s, none)

/-- Function `sendreport` (geiger.c lines 207-217): if `tick` is zero, nothing
happens.  Otherwise the flag is cleared, the counter is rendered into
`serbuf` by `hexu64`, and the buffer plus a newline are transmitted.  The
second component is the list of characters pushed into the UART. -/
def sendreport (s : MCU) : MCU × List Char :=
  if s.tick ≠ 0 then
    let s1 := { s with tick := 0 }
    let s2 := { s1 with serbuf := (hexu64 s1.count s1.serbuf).1 }
    (s2, uart_putstring s2.serbuf ++ uart_putchar '\n')
  else (s, [])

/-- Which of the two main-loop consumer routines a call trace entry names. -/
inductive Routine where
  | check
  | report
  deriving Repr, DecidableEq

/-- An invocation of `checkevent()` from the main loop: the state effect of
`checkevent` plus this call's entry in the call trace. -/
def callCheck (s : MCU) : MCU × List Routine :=
  ((checkevent s).1, [Routine.check])

/-- An invocation of `sendreport()` from the main loop: the state effect of
`sendreport` plus this call's entry in the call trace. -/
def callReport (s : MCU) : MCU × List Routine :=
  ((sendreport s).1, [Routine.report])

/-- One pass of the body of the `while(1)` loop in `main` (geiger.c lines
260-278), after the CPU wakes: `checkevent(); sendreport(); checkevent();`.
The second component is the trace of routine invocations, in the order the
body makes them. -/
def mainLoopBody (s : MCU) : MCU × List Routine :=
  let r1 := callCheck s
  let r2 := callReport r1.1
  let r3 := callCheck r2.1
  (r3.1, r1.2 ++ r2.2 ++ r3.2)

/-- Runs `n` consecutive iterations of the main loop body, accumulating the
trace of routine invocations. -/
def mainLoopIter : Nat → MCU → MCU × List Routine
  | 0, s => (s, [])
  | n + 1, s =>
      let r := mainLoopBody s
      let rest := mainLoopIter n r.1
      (rest.1, r.2 ++ rest.2)

/-- The transition relation of the main loop: one wake cycle.  The loop of
`main` has no exit edge, so this is the only transition out of any state. -/
def MainStep (s t : MCU) : Prop := t = (mainLoopBody s).1

/-- The state set up by `main` before `sei()` (geiger.c lines 230-256):
C globals start zeroed, `main` then configures the ports and timers and
re-zeroes `feedback_mode` and `count`. -/
def initMCU : MCU :=
  { feedback_mode := 0
    count := 0
    eventflag := 0
    tick := 0
    serbuf := List.replicate SER_BUFF_LEN '\x00'
    portb := 0
    portd := bv PD3        -- PORTD |= _BV(PD3): button pull-up
    tccr0a := (0 <<< COM0A1) ||| (1 <<< COM0A0) ||| (1 <<< WGM01) ||| (0 <<< WGM00)
    tccr0b := 0            -- stop Timer0 (no sound)
    ocr0a := 0
    eifr := 0 }

/-- Timer1 prescaler selected by `TCCR1B = _BV(WGM12)|_BV(CS12)|_BV(CS10)`
(geiger.c line 250): clk/1024. -/
def timer1_prescaler : Nat := 1024

/-- Assignment `OCR1A = 65535` (geiger.c line 251): the Timer1 compare-match value. -/
def OCR1A_setting : Nat := 65535

/-- Duration of one Timer1 count in microseconds: prescaler cycles at the
8 MHz CPU clock. -/
def timer1_count_us : Nat := timer1_prescaler * 1000000 / F_CPU

/-- The tick interval in microseconds: in CTC mode Timer1 counts from 0 to
OCR1A inclusive, so a compare match fires every (OCR1A + 1) counts. -/
def tick_period_us : Nat := (OCR1A_setting + 1) * timer1_count_us

/-! ## Specification-side helpers (parsing, digit classification) -/

/-- Numeric value of one hexadecimal character (the parsing direction of
the round-trip property; not part of the firmware). -/
def hexVal (c : Char) : Nat :=
  if c ≤ '9' then c.toNat - '0'.toNat else c.toNat - 'A'.toNat + 10

/-- Parse a list of characters as a base-16 numeral, most significant
digit first (the parsing direction of the round-trip property). -/
def parseHex (ds : List Char) : Nat :=
  ds.foldl (fun a c => 16 * a + hexVal c) 0

/-- An uppercase hexadecimal digit character. -/
def isUpperHex (c : Char) : Prop :=
  ('0' ≤ c ∧ c ≤ '9') ∨ ('A' ≤ c ∧ c ≤ 'F')

instance (c : Char) : Decidable (isUpperHex c) := by
  unfold isUpperHex
  infer_instance

/-- Proof-side closed form of the digit loop's output: the `n` hexadecimal
digit characters of `x`, most significant first. -/
def hexChars : Nat → Nat → List Char
  | _, 0 => []
  | x, n + 1 => hexChars (x >>> 4) n ++ [hexDigit (x &&& 0xF)]

/-! ## Helper lemmas -/

theorem and_fifteen (x : Nat) : x &&& 15 = x % 16 := by
  simpa using Nat.and_pow_two_sub_one_eq_mod x 4

theorem bv_eq_pow (n : Nat) : bv n = 2 ^ n := by
  simp [bv, Nat.shiftLeft_eq]

theorem and_bv_ne_zero_iff (x n : Nat) : x &&& bv n ≠ 0 ↔ x.testBit n = true := by
  rw [bv_eq_pow, Nat.and_two_pow]
  cases h : x.testBit n
  · simp
  · have h2 : 0 < 2 ^ n := Nat.pos_pow_of_pos n (by norm_num)
    simp [h2.ne']

theorem or_bv_testBit (x n : Nat) : (x ||| bv n).testBit n = true := by
  rw [bv_eq_pow, Nat.testBit_or, Nat.testBit_two_pow_self, Bool.or_true]

theorem bv_testBit_self (n : Nat) : (bv n).testBit n = true := by
  rw [bv_eq_pow]
  exact Nat.testBit_two_pow_self

theorem and_compl8_bv (x n : Nat) (hn : compl8 (bv n) &&& bv n = 0) :
    (x &&& compl8 (bv n)) &&& bv n = 0 := by
  rw [Nat.land_assoc, hn, Nat.and_zero]

theorem and_one_eq_of_mod4 {m k : Nat} (h : m % 4 = k % 4) : m &&& 1 = k &&& 1 := by
  rw [Nat.and_one_is_mod, Nat.and_one_is_mod]
  omega

theorem testBit_one_eq_of_mod4 {m k : Nat} (h : m % 4 = k % 4) :
    m.testBit 1 = k.testBit 1 := by
  have hm := Nat.testBit_mod_two_pow m 2 1
  have hk := Nat.testBit_mod_two_pow k 2 1
  simp only [show (2:Nat) ^ 2 = 4 by norm_num, decide_eq_true_eq] at hm hk
  rw [h] at hm
  simp only [show decide (1 < 2) = true by decide, Bool.true_and] at hm hk
  rw [← hm, hk]

theorem and_two_eq_of_mod4 {m k : Nat} (h : m % 4 = k % 4) : m &&& 2 = k &&& 2 := by
  have h2 : (2 : Nat) = 2 ^ 1 := by norm_num
  rw [h2, Nat.and_two_pow, Nat.and_two_pow, testBit_one_eq_of_mod4 h]

theorem hexDigit_facts :
    ∀ d : Nat, d < 16 →
      isUpperHex (hexDigit d) ∧ hexVal (hexDigit d) = d ∧
      hexDigit d ≠ '\x00' ∧ hexDigit d ≠ '\n' := by
  decide

theorem nibble_lt (x : Nat) : x &&& 15 < 16 :=
  Nat.lt_succ_of_le (Nat.and_le_right)

theorem hexChars_length (n : Nat) : ∀ x, (hexChars x n).length = n := by
  induction n with
  | zero => intro x; rfl
  | succ m ih => intro x; simp [hexChars, ih]

theorem hexChars_mem (n : Nat) :
    ∀ x c, c ∈ hexChars x n → ∃ d, d < 16 ∧ c = hexDigit d := by
  induction n with
  | zero => intro x c hc; simp [hexChars] at hc
  | succ m ih =>
      intro x c hc
      simp only [hexChars, List.mem_append, List.mem_singleton] at hc
      rcases hc with hc | hc
      · exact ih _ c hc
      · exact ⟨x &&& 0xF, nibble_lt x, hc⟩

theorem drop_set_eq_cons :
    ∀ (l : List Char) (n : Nat) (a : Char), n < l.length →
      (l.set n a).drop n = a :: l.drop (n + 1) := by
  intro l
  induction l with
  | nil => intro n a h; simp at h
  | cons b t ih =>
      intro n a h
      cases n with
      | zero => simp
      | succ m =>
          simp only [List.set_cons_succ, List.drop_succ_cons]
          exact ih m a (by simpa using h)

theorem hexu64Loop_buf (p : Nat) :
    ∀ x (buf : List Char), p < buf.length →
      (hexu64Loop x p buf).1 = hexChars x (p + 1) ++ buf.drop (p + 1) := by
  induction p with
  | zero =>
      intro x buf h
      have hd := drop_set_eq_cons buf 0 (hexDigit (x &&& 0xF)) h
      simp only [List.drop_zero] at hd
      simp [hexu64Loop, hexChars, hd]
  | succ q ih =>
      intro x buf h
      have hlen : q < (buf.set (q + 1) (hexDigit (x &&& 0xF))).length := by
        simp only [List.length_set]; omega
      have hd := drop_set_eq_cons buf (q + 1) (hexDigit (x &&& 0xF)) h
      simp only [hexu64Loop, ih _ _ hlen, hd]
      simp [hexChars]

theorem hexu64_buf (x : Nat) (buf : List Char) (h : buf.length = 17) :
    (hexu64 x buf).1 = hexChars x 16 ++ ['\x00'] := by
  have h15 : (15 : Nat) < (buf.set 16 '\x00').length := by
    simp [List.length_set, h]
  have h16 : (16 : Nat) < buf.length := by omega
  have hd := drop_set_eq_cons buf 16 '\x00' h16
  have hnil : buf.drop 17 = [] := List.drop_eq_nil_of_le (by omega)
  simp only [hexu64, hexu64Loop_buf 15 x _ h15, hd, hnil]

theorem parseHex_append_one (l : List Char) (c : Char) :
    parseHex (l ++ [c]) = 16 * parseHex l + hexVal c := by
  simp [parseHex, List.foldl_append]

theorem parseHex_hexChars (n : Nat) : ∀ x, parseHex (hexChars x n) = x % 16 ^ n := by
  induction n with
  | zero => intro x; simp [hexChars, parseHex, Nat.mod_one]
  | succ m ih =>
      intro x
      rw [hexChars, parseHex_append_one, ih,
        (hexDigit_facts (x &&& 0xF) (nibble_lt x)).2.1]
      rw [Nat.shiftRight_eq_div_pow, and_fifteen]
      have hdiv : x / 2 ^ 4 % 16 ^ m = x % 16 ^ (m + 1) / 16 := by
        rw [show (2:Nat) ^ 4 = 16 by norm_num, Nat.div_mod_eq_mod_mul_div,
          ← pow_succ']
      have hmod : x % 16 = x % 16 ^ (m + 1) % 16 :=
        (Nat.mod_mod_of_dvd x (dvd_pow_self 16 (Nat.succ_ne_zero m))).symm
      rw [hdiv, hmod]
      exact Nat.div_add_mod _ 16

theorem uart_putstring_digits :
    ∀ ds : List Char, (∀ c ∈ ds, c ≠ '\x00' ∧ c ≠ '\n') →
      uart_putstring (ds ++ ['\x00']) = ds := by
  intro ds
  induction ds with
  | nil => intro _; simp [uart_putstring]
  | cons c t ih =>
      intro h
      have hc := h c (by simp)
      simp only [List.cons_append, uart_putstring, if_neg hc.1, uart_putchar,
        if_neg hc.2, List.nil_append, List.singleton_append, List.cons.injEq,
        true_and]
      exact ih fun d hd => h d (by simp [hd])

theorem hexChars_ok (x n : Nat) :
    ∀ c ∈ hexChars x n, c ≠ '\x00' ∧ c ≠ '\n' := by
  intro c hc
  obtain ⟨d, hd, rfl⟩ := hexChars_mem n x c hc
  exact ⟨(hexDigit_facts d hd).2.2.1, (hexDigit_facts d hd).2.2.2⟩

theorem hexu64Loop_log_length (p : Nat) :
    ∀ x buf, ((hexu64Loop x p buf).2).length = p + 1 := by
  induction p with
  | zero => intro x buf; rfl
  | succ q ih => intro x buf; simp [hexu64Loop, ih]

theorem hexu64Loop_log_mem (p : Nat) :
    ∀ x buf w, w ∈ (hexu64Loop x p buf).2 →
      w.1 ≤ p ∧ ∃ d, d < 16 ∧ w.2 = hexDigit d := by
  induction p with
  | zero =>
      intro x buf w hw
      simp only [hexu64Loop, List.mem_singleton] at hw
      exact ⟨by simp [hw], x &&& 0xF, nibble_lt x, by simp [hw]⟩
  | succ q ih =>
      intro x buf w hw
      simp only [hexu64Loop, List.mem_cons] at hw
      rcases hw with rfl | hw
      · exact ⟨le_refl _, x &&& 0xF, nibble_lt x, rfl⟩
      · obtain ⟨h1, hd⟩ := ih _ _ w hw
        exact ⟨Nat.le_succ_of_le h1, hd⟩

theorem isr_int0_count_step (s : MCU) (h : s.count ≤ UINT64_MAX) :
    (isr_int0 s).count = min (s.count + 1) UINT64_MAX := by
  by_cases hlt : s.count < UINT64_MAX
  · have : (isr_int0 s).count = s.count + 1 := by simp [isr_int0, hlt]
    rw [this]; omega
  · have : (isr_int0 s).count = s.count := by simp [isr_int0, hlt]
    rw [this]; omega

/-! ## Claim theorems -/

/-- C1: starting from the initial state (counter zero), after any number N
of invocations of the detector-pulse interrupt handler the Event Counter
equals N as long as N is at most UINT64_MAX, and equals UINT64_MAX for any
larger N: the counter saturates and never wraps to zero. -/
theorem event_counter_saturates (N : Nat) :
    (isr_int0^[N] initMCU).count = min N UINT64_MAX := by
  induction N with
  | zero => simp [initMCU]
  | succ n ih =>
      rw [Function.iterate_succ_apply']
      have hle : (isr_int0^[n] initMCU).count ≤ UINT64_MAX := by
        rw [ih]; omega
      rw [isr_int0_count_step _ hle, ih]
      omega

/-- C4: a button press still asserted when re-sampled after the settle
delay advances the feedback mode by one modulo 256, hence by exactly one
modulo 4 on the two mode bits; a press no longer asserted after the delay
leaves the feedback mode unchanged. -/
theorem button_press_mode (s : MCU) :
    (isr_int1 true s).feedback_mode = (s.feedback_mode + 1) % 256 ∧
    (isr_int1 true s).feedback_mode % 4 = (s.feedback_mode + 1) % 4 ∧
    (isr_int1 false s).feedback_mode = s.feedback_mode := by
  refine ⟨by simp [isr_int1], ?_, by simp [isr_int1]⟩
  have h1 : (isr_int1 true s).feedback_mode = (s.feedback_mode + 1) % 256 := by
    simp [isr_int1]
  rw [h1]
  omega

/-- C6: the tick timer interrupt handler only sets the tick flag; the
event counter, the event flag, the feedback mode and the serial buffer
(and every other state component) are untouched. -/
theorem tick_isr_frame (s : MCU) :
    isr_timer1 s = { s with tick := 1 } ∧
    (isr_timer1 s).tick = 1 ∧
    (isr_timer1 s).count = s.count ∧
    (isr_timer1 s).eventflag = s.eventflag ∧
    (isr_timer1 s).feedback_mode = s.feedback_mode ∧
    (isr_timer1 s).serbuf = s.serbuf :=
  ⟨rfl, rfl, rfl, rfl, rfl, rfl⟩

/-- C7: the Timer1 constants of `main` (prescaler 1024 at the 8 MHz clock,
compare value 65535) give 128 microseconds per timer count and a tick
period of (65535 + 1) * 128 = 8388608 microseconds, roughly 8.4 seconds
and not the documented 1 second. -/
theorem tick_period_configured :
    timer1_count_us = 128 ∧
    tick_period_us = (OCR1A_setting + 1) * 128 ∧
    tick_period_us = 8388608 ∧
    8380000 < tick_period_us ∧
    tick_period_us < 8400000 ∧
    tick_period_us ≠ 1000000 := by
  refine ⟨by decide, by decide, by decide, by decide, by decide, by decide⟩

/-- C8: every iteration of the main loop invokes the Feedback Actuator,
then the Reporter, then the Feedback Actuator again, in exactly that
order, and from every state the loop has a (unique, total) next step: it
never exits. -/
theorem main_loop_order (n : Nat) :
    (∀ s, (mainLoopIter n s).2 =
      (List.replicate n [Routine.check, Routine.report, Routine.check]).join) ∧
    (∀ s, (mainLoopBody s).1 = (checkevent (sendreport (checkevent s).1).1).1) ∧
    (∀ s, ∃ t, MainStep s t) := by
  refine ⟨?_, fun s => rfl, fun s => ⟨(mainLoopBody s).1, rfl⟩⟩
  induction n with
  | zero => intro s; simp [mainLoopIter]
  | succ m ih =>
      intro s
      simp [mainLoopIter, mainLoopBody, callCheck, callReport,
        List.replicate_succ, ih]

/-- C9: for every input, `hexu64` stores only at buffer indices 0 through
16 (within the SER_BUFF_LEN = 17 byte buffer), every stored byte is the
NUL terminator or an uppercase hexadecimal digit character, and the digit
loop performs exactly 16 iterations (one store per iteration). -/
theorem hexu64_memory_safety (x : Nat) (buf : List Char) :
    (∀ w ∈ (hexu64 x buf).2, w.1 < SER_BUFF_LEN ∧
      (w.2 = '\x00' ∨ isUpperHex w.2)) ∧
    ((hexu64 x buf).2).length = 17 ∧
    ((hexu64Loop x 15 (buf.set 16 '\x00')).2).length = 16 := by
  refine ⟨?_, by simp [hexu64, hexu64Loop_log_length], by simp [hexu64Loop_log_length]⟩
  intro w hw
  simp only [hexu64, List.mem_cons] at hw
  rcases hw with rfl | hw
  · exact ⟨by simp only [SER_BUFF_LEN]; omega, Or.inl rfl⟩
  · obtain ⟨h1, d, hd, h2⟩ := hexu64Loop_log_mem 15 x _ w hw
    refine ⟨by simp only [SER_BUFF_LEN]; omega, Or.inr ?_⟩
    rw [h2]
    exact (hexDigit_facts d hd).1

/-- C2: for every 64-bit value x, `hexu64` fills the 17-byte buffer with
exactly 16 uppercase hexadecimal characters (no leading-zero suppression)
followed by a NUL terminator; parsing those 16 characters back in base 16
reproduces x; 0 encodes as sixteen zeros and 255 as 00000000000000FF. -/
theorem hexu64_encodes (x : Nat) (hx : x < 2 ^ 64) (buf : List Char)
    (hb : buf.length = 17) :
    ∃ ds : List Char,
      (hexu64 x buf).1 = ds ++ ['\x00'] ∧
      ds.length = 16 ∧
      (∀ c ∈ ds, isUpperHex c) ∧
      parseHex ds = x ∧
      (x = 0 → ds = "0000000000000000".toList) ∧
      (x = 255 → ds = "00000000000000FF".toList) := by
  refine ⟨hexChars x 16, hexu64_buf x buf hb, hexChars_length 16 x, ?_, ?_, ?_, ?_⟩
  · intro c hc
    obtain ⟨d, hd, rfl⟩ := hexChars_mem 16 x c hc
    exact (hexDigit_facts d hd).1
  · rw [parseHex_hexChars]
    rw [show (16 : Nat) ^ 16 = 2 ^ 64 by norm_num]
    exact Nat.mod_eq_of_lt hx
  · rintro rfl; decide
  · rintro rfl; decide

/-- Witness for C2 at x = 255 and a concrete 17-byte buffer. -/
theorem hexu64_encodes_witness :
    (255 : Nat) < 2 ^ 64 ∧ (List.replicate 17 ' ').length = 17 ∧
    ∃ ds : List Char,
      (hexu64 255 (List.replicate 17 ' ')).1 = ds ++ ['\x00'] ∧
      ds.length = 16 ∧
      (∀ c ∈ ds, isUpperHex c) ∧
      parseHex ds = 255 ∧
      ((255 : Nat) = 0 → ds = "0000000000000000".toList) ∧
      ((255 : Nat) = 255 → ds = "00000000000000FF".toList) :=
  ⟨by norm_num, by simp, hexu64_encodes 255 (by norm_num) _ (by simp)⟩

/-- C3: when the tick flag is clear, `sendreport` changes nothing and
transmits nothing; when it is set, `sendreport` clears it and transmits
exactly one line of 16 uppercase hexadecimal digits encoding the Event
Counter, terminated by a carriage return and a line feed (the UART layer
expands the newline to CRLF). -/
theorem sendreport_contract (s : MCU) (hc : s.count < 2 ^ 64)
    (hb : s.serbuf.length = 17) :
    (s.tick = 0 → sendreport s = (s, [])) ∧
    (s.tick ≠ 0 →
      (sendreport s).1.tick = 0 ∧
      ∃ ds : List Char,
        (sendreport s).2 = ds ++ ['\r', '\n'] ∧
        ds.length = 16 ∧
        (∀ c ∈ ds, isUpperHex c) ∧
        parseHex ds = s.count) := by
  constructor
  · intro h0
    simp [sendreport, h0]
  · intro hne
    have hbuf := hexu64_buf s.count s.serbuf hb
    have hstr : uart_putstring (hexChars s.count 16 ++ ['\x00']) =
        hexChars s.count 16 :=
      uart_putstring_digits _ (hexChars_ok s.count 16)
    refine ⟨by simp [sendreport, hne], hexChars s.count 16, ?_,
      hexChars_length 16 s.count, ?_, ?_⟩
    · simp only [sendreport, if_pos hne]
      simp [hbuf, hstr, uart_putchar]
    · intro c hc2
      obtain ⟨d, hd, rfl⟩ := hexChars_mem 16 s.count c hc2
      exact (hexDigit_facts d hd).1
    · rw [parseHex_hexChars]
      rw [show (16 : Nat) ^ 16 = 2 ^ 64 by norm_num]
      exact Nat.mod_eq_of_lt hc

/-- Witness for C3 at a concrete state with the tick flag set. -/
theorem sendreport_contract_witness :
    ({ initMCU with tick := 1 } : MCU).count < 2 ^ 64 ∧
    ({ initMCU with tick := 1 } : MCU).serbuf.length = 17 ∧
    (({ initMCU with tick := 1 } : MCU).tick = 0 →
      sendreport { initMCU with tick := 1 } = ({ initMCU with tick := 1 }, [])) ∧
    (({ initMCU with tick := 1 } : MCU).tick ≠ 0 →
      (sendreport { initMCU with tick := 1 }).1.tick = 0 ∧
      ∃ ds : List Char,
        (sendreport { initMCU with tick := 1 }).2 = ds ++ ['\r', '\n'] ∧
        ds.length = 16 ∧
        (∀ c ∈ ds, isUpperHex c) ∧
        parseHex ds = ({ initMCU with tick := 1 } : MCU).count) := by
  refine ⟨by norm_num [initMCU], by simp [initMCU, SER_BUFF_LEN], ?_, ?_⟩
  · exact (sendreport_contract _ (by norm_num [initMCU])
      (by simp [initMCU, SER_BUFF_LEN])).1
  · exact (sendreport_contract _ (by norm_num [initMCU])
      (by simp [initMCU, SER_BUFF_LEN])).2

/-- C5: with the event flag clear, `checkevent` does nothing.  With it
set, `checkevent` clears the flag first; during the 10 ms hold the LED is
on exactly when bit 0 of the feedback mode is set and the tone timer is
running and connected exactly when bit 1 is set (with OCR0A programmed to
160 in that case); afterwards the LED is off, Timer0 is stopped
(TCCR0B = 0) and its compare output disconnected, so no tone state
persists.  The hypotheses state that the LED is off and Timer0 stopped on
entry, which `main` establishes and `checkevent` itself re-establishes. -/
theorem checkevent_contract (s : MCU)
    (hled : s.portb &&& bv PB4 = 0)
    (htb : s.tccr0b = 0) :
    (s.eventflag = 0 → checkevent s = (s, none)) ∧
    (s.eventflag ≠ 0 →
      ∃ d : MCU,
        (checkevent s).2 = some d ∧
        d.eventflag = 0 ∧
        (d.portb &&& bv PB4 ≠ 0 ↔ s.feedback_mode &&& 1 ≠ 0) ∧
        ((d.tccr0b &&& bv CS01 ≠ 0 ∧ d.tccr0a &&& bv COM0A0 ≠ 0) ↔
          s.feedback_mode &&& 2 ≠ 0) ∧
        (s.feedback_mode &&& 2 ≠ 0 → d.ocr0a = 160) ∧
        (checkevent s).1.eventflag = 0 ∧
        (checkevent s).1.portb &&& bv PB4 = 0 ∧
        (checkevent s).1.tccr0b = 0 ∧
        (checkevent s).1.tccr0a &&& bv COM0A0 = 0) := by
  constructor
  · intro h0
    simp [checkevent, h0]
  · intro hne
    have hfin : (checkevent s).1.eventflag = 0 ∧
        (checkevent s).1.portb &&& bv PB4 = 0 ∧
        (checkevent s).1.tccr0b = 0 ∧
        (checkevent s).1.tccr0a &&& bv COM0A0 = 0 := by
      simp only [checkevent, if_pos hne]
      split_ifs <;>
        refine ⟨by trivial, and_compl8_bv _ PB4 (by decide), by trivial,
          and_compl8_bv _ COM0A0 (by decide)⟩
    by_cases h1 : s.feedback_mode &&& 1 = 0 <;>
      by_cases h2 : s.feedback_mode &&& 2 = 0
    · have h1m : s.feedback_mode % 2 = 0 := by rw [← Nat.and_one_is_mod]; exact h1
      have hck : (checkevent s).2 = some { s with eventflag := 0 } := by
        simp only [checkevent, if_pos hne, if_neg (not_ne_iff.mpr h1),
          if_neg (not_ne_iff.mpr h2)]
      refine ⟨_, hck, rfl, ?_, ?_, ?_, hfin.1, hfin.2.1, hfin.2.2.1, hfin.2.2.2⟩
      · simp [hled, h1m]
      · simp [htb, h2]
      · intro hcon; exact absurd h2 hcon
    · have h1m : s.feedback_mode % 2 = 0 := by rw [← Nat.and_one_is_mod]; exact h1
      have hck : (checkevent s).2 = some { s with eventflag := 0, tccr0a := s.tccr0a ||| bv COM0A0, tccr0b := s.tccr0b ||| bv CS01, ocr0a := 160 } := by
        simp only [checkevent, if_pos hne, if_neg (not_ne_iff.mpr h1), if_pos h2]
      refine ⟨_, hck, rfl, ?_, ?_, ?_, hfin.1, hfin.2.1, hfin.2.2.1, hfin.2.2.2⟩
      · simp [hled, h1m]
      · simp [and_bv_ne_zero_iff, Nat.testBit_or, bv_testBit_self, h2]
      · intro _; rfl
    · have h1m : s.feedback_mode % 2 = 1 := by
        have hh := Nat.and_one_is_mod s.feedback_mode
        rw [hh] at h1
        omega
      have hck : (checkevent s).2 = some { s with eventflag := 0, portb := s.portb ||| bv PB4 } := by
        simp only [checkevent, if_pos hne, if_pos h1, if_neg (not_ne_iff.mpr h2)]
      refine ⟨_, hck, rfl, ?_, ?_, ?_, hfin.1, hfin.2.1, hfin.2.2.1, hfin.2.2.2⟩
      · simp [and_bv_ne_zero_iff, Nat.testBit_or, bv_testBit_self, h1m]
      · simp [htb, h2]
      · intro hcon; exact absurd h2 hcon
    · have h1m : s.feedback_mode % 2 = 1 := by
        have hh := Nat.and_one_is_mod s.feedback_mode
        rw [hh] at h1
        omega
      have hck : (checkevent s).2 = some { s with eventflag := 0, portb := s.portb ||| bv PB4, tccr0a := s.tccr0a ||| bv COM0A0, tccr0b := s.tccr0b ||| bv CS01, ocr0a := 160 } := by
        simp only [checkevent, if_pos hne, if_pos h1, if_pos h2]
      refine ⟨_, hck, rfl, ?_, ?_, ?_, hfin.1, hfin.2.1, hfin.2.2.1, hfin.2.2.2⟩
      · simp [and_bv_ne_zero_iff, Nat.testBit_or, bv_testBit_self, h1m]
      · simp [and_bv_ne_zero_iff, Nat.testBit_or, bv_testBit_self, h2]
      · intro _; rfl

/-- Witness for C5 at a concrete state with the event flag set and both
feedback channels enabled (mode 3). -/
theorem checkevent_contract_witness :
    ({ initMCU with eventflag := 1, feedback_mode := 3 } : MCU).portb &&& bv PB4 = 0 ∧
    ({ initMCU with eventflag := 1, feedback_mode := 3 } : MCU).tccr0b = 0 ∧
    ((({ initMCU with eventflag := 1, feedback_mode := 3 } : MCU).eventflag = 0 →
      checkevent { initMCU with eventflag := 1, feedback_mode := 3 } =
        ({ initMCU with eventflag := 1, feedback_mode := 3 }, none)) ∧
    (({ initMCU with eventflag := 1, feedback_mode := 3 } : MCU).eventflag ≠ 0 →
      ∃ d : MCU,
        (checkevent { initMCU with eventflag := 1, feedback_mode := 3 }).2 = some d ∧
        d.eventflag = 0 ∧
        (d.portb &&& bv PB4 ≠ 0 ↔
          ({ initMCU with eventflag := 1, feedback_mode := 3 } : MCU).feedback_mode &&& 1 ≠ 0) ∧
        ((d.tccr0b &&& bv CS01 ≠ 0 ∧ d.tccr0a &&& bv COM0A0 ≠ 0) ↔
          ({ initMCU with eventflag := 1, feedback_mode := 3 } : MCU).feedback_mode &&& 2 ≠ 0) ∧
        (({ initMCU with eventflag := 1, feedback_mode := 3 } : MCU).feedback_mode &&& 2 ≠ 0 →
          d.ocr0a = 160) ∧
        (checkevent { initMCU with eventflag := 1, feedback_mode := 3 }).1.eventflag = 0 ∧
        (checkevent { initMCU with eventflag := 1, feedback_mode := 3 }).1.portb &&& bv PB4 = 0 ∧
        (checkevent { initMCU with eventflag := 1, feedback_mode := 3 }).1.tccr0b = 0 ∧
        (checkevent { initMCU with eventflag := 1, feedback_mode := 3 }).1.tccr0a &&& bv COM0A0 = 0)) :=
  ⟨by decide, by decide, checkevent_contract _ (by decide) (by decide)⟩

/-- C10: the observable effect of `checkevent` depends on the feedback
mode only through its value modulo 4: replacing the mode by any value
with the same low two bits produces the same resulting state and the same
hold-time state, apart from the stored mode value itself.  Moreover the
button handler advances the 8-bit mode with wraparound modulo 256, and
the effective mode (mod 4) still advances by exactly one across the 8-bit
wraparound. -/
theorem checkevent_mode_mod4 (s : MCU) (m : Nat)
    (h : s.feedback_mode % 4 = m % 4) :
    (checkevent { s with feedback_mode := m }).1 =
      { (checkevent s).1 with feedback_mode := m } ∧
    (checkevent { s with feedback_mode := m }).2 =
      ((checkevent s).2).map (fun d => { d with feedback_mode := m }) ∧
    (∀ t : MCU, (isr_int1 true t).feedback_mode % 4 = (t.feedback_mode % 4 + 1) % 4) := by
  have e1 : m &&& 1 = s.feedback_mode &&& 1 := and_one_eq_of_mod4 (by omega)
  have e2 : m &&& 2 = s.feedback_mode &&& 2 := and_two_eq_of_mod4 (by omega)
  have hmode : ∀ t : MCU, (isr_int1 true t).feedback_mode % 4 = (t.feedback_mode % 4 + 1) % 4 := by
    intro t
    have ht : (isr_int1 true t).feedback_mode = (t.feedback_mode + 1) % 256 := by
      simp [isr_int1]
    rw [ht]
    omega
  by_cases hne : s.eventflag ≠ 0
  · by_cases h1 : s.feedback_mode &&& 1 = 0 <;>
      by_cases h2 : s.feedback_mode &&& 2 = 0
    · refine ⟨?_, ?_, hmode⟩ <;>
      · simp only [checkevent, e1, e2, if_pos hne, if_neg (not_ne_iff.mpr h1), if_neg (not_ne_iff.mpr h2), Option.map_some]
        try rfl
    · refine ⟨?_, ?_, hmode⟩ <;>
      · simp only [checkevent, e1, e2, if_pos hne, if_neg (not_ne_iff.mpr h1), if_pos h2, Option.map_some]
        try rfl
    · refine ⟨?_, ?_, hmode⟩ <;>
      · simp only [checkevent, e1, e2, if_pos hne, if_pos h1, if_neg (not_ne_iff.mpr h2), Option.map_some]
        try rfl
    · refine ⟨?_, ?_, hmode⟩ <;>
      · simp only [checkevent, e1, e2, if_pos hne, if_pos h1, if_pos h2, Option.map_some]
        try rfl
  · refine ⟨?_, ?_, hmode⟩ <;>
    · simp only [checkevent, if_neg hne, Option.map_none]
      try rfl

/-- Witness for C10 at a concrete state with mode 1 and substituted mode
5 (equal modulo 4). -/
theorem checkevent_mode_mod4_witness :
    ({ initMCU with eventflag := 1, feedback_mode := 1 } : MCU).feedback_mode % 4 = 5 % 4 ∧
    ((checkevent { ({ initMCU with eventflag := 1, feedback_mode := 1 } : MCU) with feedback_mode := 5 }).1 =
      { (checkevent { initMCU with eventflag := 1, feedback_mode := 1 }).1 with feedback_mode := 5 } ∧
    (checkevent { ({ initMCU with eventflag := 1, feedback_mode := 1 } : MCU) with feedback_mode := 5 }).2 =
      ((checkevent { initMCU with eventflag := 1, feedback_mode := 1 }).2).map
        (fun d => { d with feedback_mode := 5 }) ∧
    (∀ t : MCU, (isr_int1 true t).feedback_mode % 4 = (t.feedback_mode % 4 + 1) % 4)) :=
  ⟨by decide, checkevent_mode_mod4 _ 5 (by decide)⟩

end Geiger
